import Mathlib

/-!
Verification of the adr-kit Policy Compliance Engine specification against the
source code.  The Python sources are shallowly embedded: strings are `List Char`,
dictionaries are ordered association lists, file-system effects are recorded as
explicit write lists, and the outcome of external collaborators (the JSON-schema
checker, the immutability manager) is passed in as a parameter.
-/

set_option maxRecDepth 4096

abbrev Str := List Char

/-- The apostrophe character (used inside pattern literals and test inputs). -/
def apoChar : Char := Char.ofNat 39

/-- Character class of `[a-zA-Z0-9\-_@/]` from `enforce/eslint.py` (the capture
class of every ban pattern and the shape test of `_normalize_library_name`). -/
def isSymChar (c : Char) : Bool :=
  c.isAlphanum || c == '-' || c == '_' || c == '@' || c == '/'

/-- Python regex `\s` on ASCII text: space, tab, newline, carriage return,
vertical tab, form feed. -/
def isPySpace (c : Char) : Bool :=
  c == ' ' || c == '\t' || c == '\n' || c == '\r' || c == '\x0b' || c == '\x0c'

/-- ASCII lowercasing of a character list, embedding Python `str.lower()` on the
ASCII inputs used throughout. -/
def toLowerL (l : Str) : Str := l.map Char.toLower

/-- Python `str.strip()` on a character list. -/
def stripL (l : Str) : Str :=
  ((l.dropWhile isPySpace).reverse.dropWhile isPySpace).reverse

/-- `w.isPrefixOf l` on character lists. -/
def isPrefixL : Str → Str → Bool
  | [], _ => true
  | _, [] => false
  | a :: as, b :: bs => a = b && isPrefixL as bs

/-- Python substring test `needle in hay`. -/
def containsSub (needle : Str) : Str → Bool
  | [] => isPrefixL needle []
  | c :: rest => isPrefixL needle (c :: rest) || containsSub needle rest

/-- Match a literal word: `litM w l = some r` iff `l = w ++ r`. -/
def litM : Str → Str → Option Str
  | [], l => some l
  | _, [] => none
  | p :: ps, c :: cs => if c = p then litM ps cs else none

/-- Regex `\s+`: require at least one whitespace character, consume maximally. -/
def spaces1 : Str → Option Str
  | [] => none
  | c :: cs => if isPySpace c then some (cs.dropWhile isPySpace) else none

/-- Regex `([a-zA-Z0-9\-_@/]+)`: capture a maximal non-empty run of symbol
characters.  Returns the capture and the remaining input. -/
def takeSym (l : Str) : Option (Str × Str) :=
  let t := l.takeWhile isSymChar
  if t = [] then none else some (t, l.dropWhile isSymChar)

def useLit : Str := "use".data
def avoidLit : Str := "avoid".data
def banLit : Str := "ban".data
def deprecateLit : Str := "deprecate".data
def dontLit : Str := "don".data ++ [apoChar] ++ "t".data
def insteadLit : Str := "instead".data
def ofLit : Str := "of".data
def replaceLit : Str := "replace".data
def withLit : Str := "with".data
def noLit : Str := "no".data
def longerLit : Str := "longer".data

/-- Tail of every single-capture ban pattern: `\s+([a-zA-Z0-9\-_@/]+)`. -/
def finishSingle (l : Str) : Option (Str × Str) :=
  (spaces1 l).bind takeSym

/-- `(?i)(?:don't\s+use|avoid|ban|deprecated?)\s+([a-zA-Z0-9\-_@/]+)`
(first entry of `ESLintRuleExtractor.ban_patterns`), tried at one position.
Each alternative is tried in the source order together with its continuation,
mirroring regex backtracking (note the alternatives start with distinct
prefixes, so at most one literal can match at a position). -/
def matchP1 (l : Str) : Option (Str × Str) :=
  (do
    let r ← litM dontLit l
    let r ← spaces1 r
    let r ← litM useLit r
    finishSingle r) <|>
  ((litM avoidLit l).bind finishSingle) <|>
  ((litM banLit l).bind finishSingle) <|>
  (match litM deprecateLit l with
   | some r =>
     (match r with
      | 'd' :: r2 => (finishSingle r2) <|> (finishSingle r)
      | _ => finishSingle r)
   | none => none)

/-- `(?i)use\s+([a-zA-Z0-9\-_@/]+)\s+instead\s+of\s+([a-zA-Z0-9\-_@/]+)`
(second ban pattern, "Use Y instead of X").  Captures `(group1, group2)`. -/
def matchP2 (l : Str) : Option ((Str × Str) × Str) := do
  let r ← litM useLit l
  let r ← spaces1 r
  let (a, r) ← takeSym r
  let r ← spaces1 r
  let r ← litM insteadLit r
  let r ← spaces1 r
  let r ← litM ofLit r
  let r ← spaces1 r
  let (b, r) ← takeSym r
  some ((a, b), r)

/-- `(?i)replace\s+([a-zA-Z0-9\-_@/]+)\s+with\s+([a-zA-Z0-9\-_@/]+)`
(third ban pattern, "Replace X with Y").  Captures `(group1, group2)`. -/
def matchP3 (l : Str) : Option ((Str × Str) × Str) := do
  let r ← litM replaceLit l
  let r ← spaces1 r
  let (a, r) ← takeSym r
  let r ← spaces1 r
  let r ← litM withLit r
  let r ← spaces1 r
  let (b, r) ← takeSym r
  some ((a, b), r)

/-- `(?i)no\s+longer\s+use\s+([a-zA-Z0-9\-_@/]+)` (fourth ban pattern). -/
def matchP4 (l : Str) : Option (Str × Str) := do
  let r ← litM noLit l
  let r ← spaces1 r
  let r ← litM longerLit r
  let r ← spaces1 r
  let r ← litM useLit r
  finishSingle r

/-- `re.findall` driver: scan left to right, on a match record its captures and
resume after the match, otherwise advance one character.  All matchers consume
at least one character on success, so fuel `l.length + 1` is never exhausted. -/
def findallAux {κ : Type} (m : Str → Option (κ × Str)) : Nat → Str → List κ
  | 0, _ => []
  | _ + 1, [] => []
  | fuel + 1, c :: rest =>
    match m (c :: rest) with
    | some (cap, r) => cap :: findallAux m fuel r
    | none => findallAux m fuel rest

/-- `re.findall(pattern, l)` for one of the embedded patterns. -/
def findallM {κ : Type} (m : Str → Option (κ × Str)) (l : Str) : List κ :=
  findallAux m (l.length + 1) l

/-! ## Data model (`core/model.py`) -/

/-- `ADRStatus` enum from `core/model.py` (MADR status values). -/
inductive ADRStatus where
  | proposed
  | accepted
  | superseded
  | deprecated
deriving DecidableEq, Repr

/-- The `.value` of an `ADRStatus` member (it is a `str` enum). -/
def ADRStatus.value : ADRStatus → String
  | .proposed => "proposed"
  | .accepted => "accepted"
  | .superseded => "superseded"
  | .deprecated => "deprecated"

/-- Modelled from the spec: the `imports` collection of the Policy Model
(§3, `{disallow: set<string>, prefer: set<string>}`); `core/policy_extractor.py`
and the `PolicyModel` class are not among the provided sources. -/
structure ImportPolicy where
  disallow : List String := []
  prefer : List String := []
deriving DecidableEq, Repr

/-- Modelled from the spec: architectural layer boundaries of the Policy Model
(§3, ordered named layers with path-globs plus directional forbidding rules). -/
structure BoundaryPolicy where
  layers : List (String × String) := []
  rules : List String := []
deriving DecidableEq, Repr

/-- Modelled from the spec: language-specific import rules of the Policy Model
(§3 `language_rules`); `mcp/server.py` accesses this collection as the `python`
field with a per-language disallow list. -/
structure PythonPolicy where
  disallow_imports : List String := []
deriving DecidableEq, Repr

/-- Modelled from the spec: the Policy Model (§3) — imports allow/deny,
language-specific import rules, layer boundaries and free-text rationales. -/
structure PolicyModel where
  imports : Option ImportPolicy := none
  boundaries : Option BoundaryPolicy := none
  python : Option PythonPolicy := none
  rationales : List String := []
deriving DecidableEq, Repr

/-- `ADRFrontMatter` from `core/model.py`.  The `date` field is kept as an
opaque string (it is never inspected by the engine).  The `policy` block is an
additional property admitted by `extra="allow"` and consumed by the policy
extractor and `mcp/server.py`. -/
structure ADRFrontMatter where
  id : String
  title : String
  status : ADRStatus
  date : String := ""
  deciders : Option (List String) := none
  tags : Option (List String) := none
  supersedes : Option (List String) := none
  superseded_by : Option (List String) := none
  policy : Option PolicyModel := none
deriving DecidableEq, Repr

/-- `ADR` from `core/model.py`: front matter plus Markdown content. -/
structure ADR where
  front_matter : ADRFrontMatter
  content : String
  file_path : Option String := none
deriving DecidableEq, Repr

/-! ## ESLint rule extraction (`enforce/eslint.py`) -/

/-- One entry of the `custom_rules` list built by
`_extract_frontend_rules` / `_extract_backend_rules`. -/
structure CustomRule where
  rule : String
  severity : String
deriving DecidableEq, Repr

/-- The dictionary returned by `ESLintRuleExtractor.extract_from_adr`:
`banned_imports` is an ordered list (appends, duplicates possible),
`preferred_imports` an ordered dictionary keyed by the banned library. -/
structure ExtractedRules where
  banned_imports : List String := []
  preferred_imports : List (String × String) := []
  custom_rules : List CustomRule := []
deriving DecidableEq, Repr

/-- `self.library_mappings` lookup (a Python dict probed with `name in ...`). -/
def libraryMappingLookup (n : String) : Option String :=
  if n = "react-query" then some "@tanstack/react-query"
  else if n = "react query" then some "@tanstack/react-query"
  else if n = "axios" then some "axios"
  else if n = "fetch" then some "fetch"
  else if n = "lodash" then some "lodash"
  else if n = "moment" then some "moment"
  else if n = "date-fns" then some "date-fns"
  else if n = "dayjs" then some "dayjs"
  else if n = "jquery" then some "jquery"
  else if n = "underscore" then some "underscore"
  else none

/-- `skip_words` of `_normalize_library_name`. -/
def skipWords : List String :=
  ["the", "a", "an", "and", "or", "but", "in", "on", "at", "to", "for", "of",
   "with", "by"]

/-- `ESLintRuleExtractor._normalize_library_name`: lowercase and strip, map
known library aliases, reject stop words and single characters, then require
the identifier-like shape `^[a-zA-Z0-9\-_@/]+$` (non-emptiness of the shape
is already guaranteed by the length check). -/
def normalizeLibraryName (name : String) : Option String :=
  let n := String.mk (stripL (toLowerL name.data))
  match libraryMappingLookup n with
  | some v => some v
  | none =>
    if skipWords.contains n ∨ n.length < 2 then none
    else if n.data.all isSymChar then some n else none

/-- Assignment `d[k] = v` on an insertion-ordered Python dictionary. -/
def dictSet (d : List (String × String)) (k v : String) : List (String × String) :=
  if d.any (fun p => p.1 = k) then
    d.map (fun p => if p.1 = k then (k, v) else p)
  else d ++ [(k, v)]

/-- Processing of a two-group match in `extract_from_adr`:
`preferred, banned = match`; the banned library is appended and, when both
normalize, the preferred library is recorded under the banned key. -/
def procPair (st : ExtractedRules) (m : Str × Str) : ExtractedRules :=
  let bannedLib := normalizeLibraryName (String.mk (stripL m.2))
  let preferredLib := normalizeLibraryName (String.mk (stripL m.1))
  match bannedLib with
  | some b =>
    { st with
      banned_imports := st.banned_imports ++ [b]
      preferred_imports :=
        match preferredLib with
        | some p => dictSet st.preferred_imports b p
        | none => st.preferred_imports }
  | none => st

/-- Processing of a single-group match in `extract_from_adr`. -/
def procSingle (st : ExtractedRules) (m : Str) : ExtractedRules :=
  match normalizeLibraryName (String.mk (stripL m)) with
  | some b => { st with banned_imports := st.banned_imports ++ [b] }
  | none => st

/-- `ESLintRuleExtractor._extract_frontend_rules`. -/
def frontendCustomRules (content : Str) : List CustomRule :=
  if containsSub "react".data content then
    if containsSub "hooks".data content &&
        (containsSub dontLit content || containsSub avoidLit content) then
      [⟨"react-hooks/rules-of-hooks", "error"⟩]
    else []
  else []

/-- `ESLintRuleExtractor._extract_backend_rules`. -/
def backendCustomRules (content : Str) : List CustomRule :=
  if containsSub "node".data content || containsSub "nodejs".data content then
    if containsSub "synchronous".data content &&
        (containsSub dontLit content || containsSub avoidLit content) then
      [⟨"no-sync", "error"⟩]
    else []
  else []

/-- `content = f"{adr.front_matter.title} {adr.content}".lower()` — the text
scanned by `extract_from_adr` (and, per §4.1, by the policy extractor's
pattern layer). -/
def contentLower (adr : ADR) : Str :=
  toLowerL ((adr.front_matter.title ++ " " ++ adr.content).data)

/-- The body of `ESLintRuleExtractor.extract_from_adr` past the status check:
the four ban patterns run in list order over the lowercased
`title + " " + content`; the tag-specific helpers then replace the
`custom_rules` entry (via `dict.update`). -/
def extractPipeline (adr : ADR) : ExtractedRules :=
  let content := contentLower adr
  let st := (findallM matchP1 content).foldl procSingle {}
  let st := (findallM matchP2 content).foldl procPair st
  let st := (findallM matchP3 content).foldl procPair st
  let st := (findallM matchP4 content).foldl procSingle st
  let tags := adr.front_matter.tags.getD []
  let cr :=
    if tags.contains "frontend" then frontendCustomRules content
    else st.custom_rules
  let cr :=
    if ["backend", "api", "server"].any (fun t => tags.contains t) then
      backendCustomRules content
    else cr
  { st with custom_rules := cr }

/-- `ESLintRuleExtractor.extract_from_adr`: only accepted ADRs contribute. -/
def extractFromADR (adr : ADR) : ExtractedRules :=
  if adr.front_matter.status ≠ ADRStatus.accepted then {}
  else extractPipeline adr

/-! ## Validation (`core/validate.py`) -/

/-- The `level` field of a `ValidationIssue` (only these two values occur). -/
inductive IssueLevel where
  | error
  | warning
deriving DecidableEq, Repr

/-- `ValidationIssue` dataclass from `core/validate.py`. -/
structure ValidationIssue where
  level : IssueLevel
  message : String
  field : Option String := none
  rule : Option String := none
  file_path : Option String := none
deriving DecidableEq, Repr

/-- `ValidationResult` dataclass from `core/validate.py`. -/
structure ValidationResult where
  is_valid : Bool
  issues : List ValidationIssue
  adr : Option ADR := none
deriving DecidableEq, Repr

/-- Python truthiness `bool(v) = True` for an optional list
(`None` and `[]` are falsy). -/
def truthyList (v : Option (List String)) : Bool :=
  match v with
  | none => false
  | some l => !l.isEmpty

def apoS : String := String.mk [apoChar]

/-- Message of the `superseded_requires_superseded_by` rule. -/
def supersededMsg : String :=
  "ADRs with status " ++ apoS ++ "superseded" ++ apoS ++ " must specify " ++
    apoS ++ "superseded_by" ++ apoS

/-- Message of the `proposed_not_superseded` rule. -/
def proposedMsg : String :=
  "Proposed ADRs typically should not have " ++ apoS ++ "superseded_by" ++ apoS

/-- `ADRValidator.validate_semantic_rules`: the four semantic rules, in source
order (superseded-without-superseded_by, the two self-reference checks, and the
proposed-with-superseded_by warning). -/
def validateSemanticRules (adr : ADR) : List ValidationIssue :=
  let fm := adr.front_matter
  (if fm.status = ADRStatus.superseded ∧ truthyList fm.superseded_by = false then
    [{ level := .error
       message := supersededMsg
       field := some "superseded_by"
       rule := some "superseded_requires_superseded_by"
       file_path := adr.file_path }]
  else []) ++
  (if truthyList fm.supersedes ∧ fm.id ∈ fm.supersedes.getD [] then
    [{ level := .error
       message := "ADR cannot supersede itself"
       field := some "supersedes"
       rule := some "no_self_reference"
       file_path := adr.file_path }]
  else []) ++
  (if truthyList fm.superseded_by ∧ fm.id ∈ fm.superseded_by.getD [] then
    [{ level := .error
       message := "ADR cannot be superseded by itself"
       field := some "superseded_by"
       rule := some "no_self_reference"
       file_path := adr.file_path }]
  else []) ++
  (if fm.status = ADRStatus.proposed ∧ truthyList fm.superseded_by then
    [{ level := .warning
       message := proposedMsg
       field := some "superseded_by"
       rule := some "proposed_not_superseded"
       file_path := adr.file_path }]
  else [])

/-- `ADRValidator.validate_adr`: JSON-schema issues (produced by the external
`jsonschema` collaborator, passed in as `schemaIssues`) followed by the semantic
issues; `is_valid` is `not has_errors` over the combined list. -/
def validateADR (schemaIssues : List ValidationIssue) (adr : ADR) : ValidationResult :=
  let issues := schemaIssues ++ validateSemanticRules adr
  { is_valid := !issues.any (fun i => i.level = IssueLevel.error)
    issues := issues
    adr := some adr }

/-! ## Pydantic field validators of `ADRFrontMatter` (`core/model.py`) -/

/-- `ensure_list_or_none` (mode `before`): empty lists become `None`. -/
def ensureListOrNone (v : Option (List String)) : Option (List String) :=
  if v = some [] then none else v

/-- `validate_superseded_status`: raises `ValueError` when `status` is
`superseded` and `superseded_by` is missing or empty. -/
def validateSupersededStatus (status : ADRStatus) (v : Option (List String)) :
    Except String (Option (List String)) :=
  if status = ADRStatus.superseded ∧ truthyList v = false then
    Except.error ("ADRs with status " ++ apoS ++ "superseded" ++ apoS ++
      " must have " ++ apoS ++ "superseded_by" ++ apoS ++ " field")
  else Except.ok v

/-- A constructor argument of a pydantic model: either omitted (the field
keeps its default and no validator runs on it — pydantic v2 leaves
`validate_default` off) or provided (the before- and field-validators run on
the supplied value). -/
inductive PyField (α : Type) where
  | omitted
  | provided (v : α)
deriving DecidableEq, Repr

/-- The stored value of an optional-list field of `ADRFrontMatter`:
`ensure_list_or_none` (mode `before`) runs only when the field was provided;
an omitted field keeps its `None` default. -/
def resolveListField : PyField (Option (List String)) → Option (List String)
  | PyField.omitted => none
  | PyField.provided v => ensureListOrNone v

/-- Construction of `ADRFrontMatter` with its field validators applied as
pydantic v2 runs them: validators fire only for provided fields, so
`validate_superseded_status` checks `superseded_by` against `status` only when
that key was supplied; an omitted `superseded_by` is stored as `None` with no
check. -/
def mkADRFrontMatter (id title : String) (status : ADRStatus) (date : String)
    (deciders tags supersedes superseded_by : PyField (Option (List String)))
    (policy : Option PolicyModel := none) : Except String ADRFrontMatter :=
  let deciders := resolveListField deciders
  let tags := resolveListField tags
  let supersedes := resolveListField supersedes
  match superseded_by with
  | PyField.omitted =>
    Except.ok { id := id, title := title, status := status, date := date
                deciders := deciders, tags := tags, supersedes := supersedes
                superseded_by := none, policy := policy }
  | PyField.provided v =>
    match validateSupersededStatus status (ensureListOrNone v) with
    | Except.error e => Except.error e
    | Except.ok sb =>
      Except.ok { id := id, title := title, status := status, date := date
                  deciders := deciders, tags := tags, supersedes := supersedes
                  superseded_by := sb, policy := policy }

/-! ## Policy extractor, modelled from the spec (§4.1)

`core/policy_extractor.py` is not among the provided sources; only its callers
(`mcp/server.py`) and tests are.  The definitions below are modelled from the
spec: the three case-insensitive directive patterns over title + body, token
acceptance (identifier-like shape, length at least two, not a stop word — the
stop-word set is taken from the repository's normalization convention in
`enforce/eslint.py`), merging with the structured block where the structured
disposition wins, `has_extractable_policy`, and `validate_completeness`. -/

def preferLit : Str := "prefer".data
def overLit : Str := "over".data
def shouldLit : Str := "should".data
def notLit : Str := "not".data

/-- Modelled from the spec: directive pattern 1,
"use/prefer A instead of/over B" (A preferred, B disallowed). -/
def specMatchPrefer (l : Str) : Option ((Str × Str) × Str) := do
  let r ← (litM useLit l) <|> (litM preferLit l)
  let r ← spaces1 r
  let (a, r) ← takeSym r
  let r ← spaces1 r
  let r ← (do
      let r ← litM insteadLit r
      let r ← spaces1 r
      litM ofLit r) <|> litM overLit r
  let r ← spaces1 r
  let (b, r) ← takeSym r
  some ((a, b), r)

/-- Modelled from the spec: directive pattern 2,
"replace A with B" (A disallowed, B preferred). -/
def specMatchReplace (l : Str) : Option ((Str × Str) × Str) := do
  let r ← litM replaceLit l
  let r ← spaces1 r
  let (a, r) ← takeSym r
  let r ← spaces1 r
  let r ← litM withLit r
  let r ← spaces1 r
  let (b, r) ← takeSym r
  some ((a, b), r)

/-- Modelled from the spec: directive pattern 3,
"don't use / avoid / ban / no longer use / should not use A" (A disallowed). -/
def specMatchBan (l : Str) : Option (Str × Str) :=
  (do
    let r ← litM dontLit l
    let r ← spaces1 r
    let r ← litM useLit r
    finishSingle r) <|>
  ((litM avoidLit l).bind finishSingle) <|>
  ((litM banLit l).bind finishSingle) <|>
  (do
    let r ← litM noLit l
    let r ← spaces1 r
    let r ← litM longerLit r
    let r ← spaces1 r
    let r ← litM useLit r
    finishSingle r) <|>
  (do
    let r ← litM shouldLit l
    let r ← spaces1 r
    let r ← litM notLit r
    let r ← spaces1 r
    let r ← litM useLit r
    finishSingle r)

/-- Modelled from the spec: a symbol token is accepted only when it has the
identifier-like shape, is at least two characters and is not a stop word. -/
def specAcceptToken (t : Str) : Option String :=
  if 2 ≤ t.length ∧ ¬ skipWords.contains (String.mk t) ∧ t.all isSymChar then
    some (String.mk t)
  else none

/-- Modelled from the spec: the concatenation of title and body scanned by the
pattern layer, case-insensitive (the same lowercased text as `contentLower`). -/
def specScanText (adr : ADR) : Str :=
  contentLower adr

/-- Modelled from the spec: `extract(record)` — seed from the structured block
when present, add pattern-derived imports, structured disposition wins on
conflict and disallow wins over prefer for the same symbol. -/
def specExtractPolicy (adr : ADR) : PolicyModel :=
  let structured := adr.front_matter.policy
  let sImports := (structured.bind (fun p => p.imports)).getD {}
  let text := specScanText adr
  let prefPairs := findallM specMatchPrefer text
  let replPairs := findallM specMatchReplace text
  let bans := findallM specMatchBan text
  let patPrefer :=
    (prefPairs.map (fun m => m.1) ++ replPairs.map (fun m => m.2)).filterMap specAcceptToken
  let patDis :=
    (prefPairs.map (fun m => m.2) ++ replPairs.map (fun m => m.1) ++ bans).filterMap
      specAcceptToken
  let dis := sImports.disallow ++
    patDis.filter (fun x => x ∉ sImports.disallow ∧ x ∉ sImports.prefer)
  let pref := sImports.prefer ++
    patPrefer.filter (fun x => x ∉ sImports.prefer ∧ x ∉ sImports.disallow ∧ x ∉ dis)
  { imports :=
      if dis.isEmpty ∧ pref.isEmpty then structured.bind (fun p => p.imports)
      else some { disallow := dis, prefer := pref }
    boundaries := structured.bind (fun p => p.boundaries)
    python := structured.bind (fun p => p.python)
    rationales := (structured.map (fun p => p.rationales)).getD [] }

/-- Modelled from the spec (§3 invariant): a Policy Model with all collections
empty is "empty". -/
def policyEmptyModel (m : PolicyModel) : Bool :=
  (match m.imports with
   | none => true
   | some ip => ip.disallow.isEmpty && ip.prefer.isEmpty) &&
  (match m.boundaries with
   | none => true
   | some b => b.layers.isEmpty && b.rules.isEmpty) &&
  (match m.python with
   | none => true
   | some p => p.disallow_imports.isEmpty) &&
  m.rationales.isEmpty

/-- Modelled from the spec: whether any directive pattern matched at all
(tracked even when normalization rejected the captured token). -/
def specPatternMatched (adr : ADR) : Bool :=
  let text := specScanText adr
  !(findallM specMatchPrefer text).isEmpty ||
  !(findallM specMatchReplace text).isEmpty ||
  !(findallM specMatchBan text).isEmpty

/-- Modelled from the spec: `has_extractable_policy` is true iff the merged
Policy Model is non-empty or a pattern matched. -/
def hasExtractablePolicy (adr : ADR) : Bool :=
  !(policyEmptyModel (specExtractPolicy adr)) || specPatternMatched adr

/-- Modelled from the spec: `validate_completeness` — for an accepted decision
with no non-empty policy collection, one warning naming the decision. -/
def validatePolicyCompleteness (adr : ADR) : List String :=
  if adr.front_matter.status = ADRStatus.accepted ∧
      policyEmptyModel (specExtractPolicy adr) then
    ["Decision " ++ adr.front_matter.id ++
      " has no extractable policy; add a structured policy block or stronger prose language"]
  else []

/-! ## `adr_create` (`mcp/server.py`) -/

/-- `ADRCreatePayload` from `mcp/server.py`. -/
structure CreatePayload where
  title : String
  tags : Option (List String) := none
  deciders : Option (List String) := none
  status : Option ADRStatus := some ADRStatus.proposed
  policy : Option PolicyModel := none
  content : Option String := none

/-- Environment of one `adr_create` call: the parsed ADR store (files whose
parse fails are skipped by the source loop and therefore omitted), the result
of `load_adr_template()` and today's date. -/
structure CreateEnv where
  files : List (String × ADR)
  template : String
  today : String

/-- The response dictionary built by `adr_create`.  Narrative-only entries
(`message`, `next_steps`, `workflow_stage`, the lint generation tip) are
omitted; `policy_warnings` models the `policy_warnings` key, which is present
iff the list is non-empty (`if policy_validation:`). -/
structure CreateResponse where
  success : Bool
  id : String := ""
  path : String := ""
  status : String := ""
  policy_detected : Bool := false
  policy_summary : Option (Bool × Bool × Bool) := none
  enforcement_ready : Option Bool := none
  policy_warnings : List String := []
  write : Option (String × ADR) := none

/-- Python `f"{n:04d}"`. -/
def pad4 (n : Nat) : String :=
  let s := toString n
  String.mk (List.replicate (4 - s.length) '0') ++ s

/-- The max-ID scan of `adr_create`: ADR ids of the form `ADR-` followed by
digits contribute their number. -/
def nextADRNum (files : List (String × ADR)) : Nat :=
  files.foldl
    (fun m pa =>
      let id := pa.2.front_matter.id
      if id.startsWith "ADR-" then
        match (id.drop 4).toNat? with
        | some n => Nat.max m n
        | none => m
      else m)
    0

/-- Python `title.lower().replace(' ', '-')`. -/
def slugify (title : String) : String :=
  String.mk ((toLowerL title.data).map (fun c => if c = ' ' then '-' else c))

/-- `adr_create` from `mcp/server.py`: allocate the next id, build the front
matter and content, run the policy extractor, and only when a structured policy
was supplied or `has_extractable_policy` holds, collect completeness warnings
into the response. -/
def adrCreate (env : CreateEnv) (payload : CreatePayload)
    (adrDir : String := "docs/adr") : CreateResponse :=
  let newId := "ADR-" ++ pad4 (nextADRNum env.files + 1)
  let fm : ADRFrontMatter :=
    { id := newId, title := payload.title
      status := payload.status.getD ADRStatus.proposed
      date := env.today, tags := payload.tags, deciders := payload.deciders
      policy := payload.policy }
  let content :=
    match payload.content with
    | some c => if c = "" then env.template else c
    | none => env.template
  let adr : ADR := { front_matter := fm, content := content }
  let extracted := specExtractPolicy adr
  let policyValidation :=
    if payload.policy.isSome || hasExtractablePolicy adr then
      validatePolicyCompleteness adr
    else []
  let path := adrDir ++ "/" ++ newId ++ "-" ++ slugify payload.title ++ ".md"
  let detected :=
    extracted.imports.isSome || extracted.boundaries.isSome || extracted.python.isSome
  { success := true
    id := newId
    path := path
    status := "proposed"
    policy_detected := detected
    policy_summary :=
      if detected then
        some (extracted.imports.isSome, extracted.boundaries.isSome,
          extracted.python.isSome)
      else none
    enforcement_ready := if detected then some policyValidation.isEmpty else none
    policy_warnings := policyValidation
    write := some (path, adr) }

/-! ## `adr_approve` (`mcp/server.py`) -/

/-- The lock object returned by `ImmutabilityManager.approve_adr` (external to
the provided sources; only the fields read by `adr_approve` are modelled). -/
structure LockRecord where
  digest : String
  locked_at : String
  is_readonly : Bool
deriving DecidableEq, Repr

/-- The `immutability` entry of the approval response: either the lock data or
the caught-exception fallback (`error` / `fallback` keys). -/
inductive ImmutInfo where
  | locked (digest locked_at : String) (is_readonly : Bool)
  | failed (error fallback : String)
deriving DecidableEq, Repr

/-- Environment of one `adr_approve` call: the parsed ADR store, the external
JSON-schema checker's findings per ADR, and the outcome of the
`ImmutabilityManager.approve_adr` call (the `try` body). -/
structure ApproveEnv where
  files : List (String × ADR)
  schemaIssues : ADR → List ValidationIssue
  lockResult : Except String LockRecord

/-- The response dictionary of `adr_approve`, with the file writes the call
performed recorded in order.  Narrative-only entries (`message`, `guidance`,
`security_features`) are omitted. -/
structure ApproveResult where
  success : Bool
  error : Option String := none
  validation_issues : List ValidationIssue := []
  writes : List (String × ADR) := []
  immutability : Option ImmutInfo := none
  superseded_adrs : List String := []
  new_status : Option String := none

/-- The find-the-ADR loop of `adr_approve` (first file whose id matches). -/
def findADRById (files : List (String × ADR)) (adrId : String) :
    Option (String × ADR) :=
  files.find? (fun pa => pa.2.front_matter.id = adrId)

/-- `str(AttributeError(...))` raised by reading `.value` off a plain string. -/
def strAttrError : String :=
  apoS ++ "str" ++ apoS ++ " object has no attribute " ++ apoS ++ "value" ++ apoS

/-- The read `target_adr.front_matter.status.value` at the already-accepted
check of `adr_approve`.  With `ConfigDict(use_enum_values=True)` in
`core/model.py`, a pydantic-validated front matter stores `status` as the plain
string value rather than the enum member (`adr_query_related` in the same file
depends on exactly this: its `str(adr.front_matter.status) == "accepted"`
comparison only holds for a plain string), so the attribute access raises
`AttributeError` for every parsed ADR. -/
def pyStatusValue (_status : ADRStatus) : Except String String :=
  Except.error strAttrError

/-- The superseding loop of `adr_approve`: for each id, the first matching file
is rewritten with status `superseded` and `superseded_by = [adr_id]`; returns
the writes and the list of updated ids. -/
def supersededWritesFor (files : List (String × ADR)) (ids : List String)
    (adrId : String) : List (String × ADR) × List String :=
  ids.foldl
    (fun acc sid =>
      match findADRById files sid with
      | some (p, old) =>
        let old2 :=
          { old with front_matter :=
              { old.front_matter with status := ADRStatus.superseded
                                      superseded_by := some [adrId] } }
        (acc.1 ++ [(p, old2)], acc.2 ++ [sid])
      | none => acc)
    ([], [])

/-- `adr_approve` from `mcp/server.py`: find the target; read
`status.value` for the already-accepted check — an access that raises for
every parsed ADR (see `pyStatusValue`) and is converted by the function's
blanket `except` into a generic failure response; the remaining steps (refuse
when already accepted, refuse when validation fails, flip the status, write
the superseded ADRs and the target, then attempt the immutability lock whose
failure is caught and reported inside a still successful response) are
embedded as written but are only reachable if the `.value` read returned (the
index regeneration step has no observable effect on the result and is
omitted). -/
def adrApprove (env : ApproveEnv) (adrId : String)
    (supersedeIds : Option (List String)) (_make_readonly : Bool := false) :
    ApproveResult :=
  match findADRById env.files adrId with
  | none =>
    { success := false, error := some ("ADR " ++ adrId ++ " not found") }
  | some (path, target) =>
    match pyStatusValue target.front_matter.status with
    | Except.error e => { success := false, error := some e }
    | Except.ok v =>
    if v = "accepted" then
      { success := false, error := some "ADR already accepted" }
    else
      let vres := validateADR (env.schemaIssues target) target
      if vres.is_valid = false then
        { success := false, error := some "ADR validation failed"
          validation_issues := vres.issues }
      else
        let ids := supersedeIds.getD []
        let doSupersede := !ids.isEmpty
        let target2 :=
          { target with front_matter :=
              { target.front_matter with
                  status := ADRStatus.accepted
                  supersedes :=
                    if doSupersede then some ids
                    else target.front_matter.supersedes } }
        let supPart :=
          if doSupersede then supersededWritesFor env.files ids adrId
          else ([], [])
        let immut :=
          match env.lockResult with
          | Except.ok lock =>
            ImmutInfo.locked lock.digest lock.locked_at lock.is_readonly
          | Except.error e =>
            ImmutInfo.failed ("Immutability setup failed: " ++ e)
              "ADR approved but not locked"
        { success := true
          writes := supPart.1 ++ [(path, target2)]
          immutability := some immut
          superseded_adrs := supPart.2
          new_status := some "accepted" }

/-! ## Concrete instances used by the claims -/

/-- An accepted decision whose text is the §8 round-trip example. -/
def adrC2 : ADR :=
  { front_matter :=
      { id := "ADR-0001", title := "Framework Choice", status := ADRStatus.accepted }
    content := "Don" ++ apoS ++ "t use Flask or Django. Prefer FastAPI over Flask." }

/-- An accepted decision containing the directive "replace moment with dayjs"
(both tokens are identifier-like and survive normalization). -/
def adrC3 : ADR :=
  { front_matter := { id := "ADR-0002", title := "Logging", status := ADRStatus.accepted }
    content := "Replace moment with dayjs" }

/-- An accepted decision containing the directive "prefer httpx over requests". -/
def adrC5x : ADR :=
  { front_matter := { id := "ADR-0003", title := "HTTP", status := ADRStatus.accepted }
    content := "prefer httpx over requests" }

/-- An accepted decision whose text contains the directive
"use aaa instead of bbb" preceded by an overlapping earlier occurrence of the
same pattern. -/
def adrC5y : ADR :=
  { front_matter := { id := "ADR-0004", title := "t", status := ADRStatus.accepted }
    content := "use x instead of use aaa instead of bbb" }

/-- The decision text of the amended use-instead-of directive claim: title "t"
and body exactly `use A instead of B`. -/
def useInsteadADR (A B : Str) : ADR :=
  { front_matter := { id := "ADR-0001", title := "t", status := ADRStatus.accepted }
    content := String.mk (useLit ++ [' '] ++ A ++ [' '] ++ insteadLit ++ [' '] ++
      ofLit ++ [' '] ++ B) }

/-- A proposed decision that does contain a ban directive (used to show that
non-accepted decisions contribute nothing even with directive prose). -/
def adrC10 : ADR :=
  { front_matter := { id := "ADR-0005", title := "Frameworks", status := ADRStatus.proposed }
    content := "Don" ++ apoS ++ "t use Flask" }

/-- A create payload with no structured policy and no directive prose. -/
def payloadC1 : CreatePayload :=
  { title := "Adopt Modern Toolchain"
    content := some "We will keep the current architecture simple." }

/-- The environment of the silent-creation scenario: empty store. -/
def envC1 : CreateEnv :=
  { files := [], template := "## Context", today := "2026-10-12" }

/-- An already-accepted decision. -/
def adrC4 : ADR :=
  { front_matter := { id := "ADR-0001", title := "X", status := ADRStatus.accepted }
    content := "c" }

/-- A store holding a single already-accepted decision. -/
def storeC4 : List (String × ADR) :=
  [("docs/adr/ADR-0001-x.md", adrC4)]

/-- Approval environment over `storeC4` with a healthy lock step. -/
def envC4 : ApproveEnv :=
  { files := storeC4, schemaIssues := fun _ => []
    lockResult := Except.ok ⟨"digest", "2026-10-12T00:00:00", false⟩ }

/-- The proposed decision of the lock-failure scenario. -/
def adrC7 : ADR :=
  { front_matter := { id := "ADR-0002", title := "Y", status := ADRStatus.proposed }
    content := "c" }

/-- Approval environment whose immutability step fails. -/
def envC7 : ApproveEnv :=
  { files := [("docs/adr/ADR-0002-y.md", adrC7)]
    schemaIssues := fun _ => []
    lockResult := Except.error "disk full" }

/-- A superseded decision with no `superseded_by` list. -/
def adrC9 : ADR :=
  { front_matter := { id := "ADR-0003", title := "Z", status := ADRStatus.superseded }
    content := "c" }

/-! ## The use-instead-of directive text -/

/-- The scanned text after the leading `t use `. -/
def tailT (A B : Str) : Str :=
  A ++ (' ' :: (insteadLit ++ (' ' :: (ofLit ++ (' ' :: B)))))

/-- The full lowercased scan text of `useInsteadADR A B`. -/
def useT (A B : Str) : Str :=
  't' :: ' ' :: 'u' :: 's' :: 'e' :: ' ' :: tailT A B

/-! ## Helper lemmas about the scanning combinators -/

theorem sym_not_space {c : Char} (h : isSymChar c = true) : isPySpace c = false := by
  by_contra h2
  rw [Bool.not_eq_false] at h2
  simp only [isPySpace, Bool.or_eq_true, beq_iff_eq] at h2
  rcases h2 with ((((rfl | rfl) | rfl) | rfl) | rfl) | rfl <;> simp [isSymChar] at h

theorem dropWhile_py_of_sym {l : Str} (h : l.all isSymChar = true) :
    l.dropWhile isPySpace = l := by
  cases l with
  | nil => rfl
  | cons c t =>
    simp only [List.all_cons, Bool.and_eq_true] at h
    simp [List.dropWhile, sym_not_space h.1]

theorem stripL_of_sym {l : Str} (h : l.all isSymChar = true) : stripL l = l := by
  unfold stripL
  rw [dropWhile_py_of_sym h]
  rw [dropWhile_py_of_sym (by simpa using h)]
  exact l.reverse_reverse

theorem litM_eq {w l r : Str} : litM w l = some r ↔ l = w ++ r := by
  induction w generalizing l with
  | nil => simp [litM]
  | cons a as ih =>
    cases l with
    | nil => simp [litM]
    | cons c cs =>
      by_cases hc : c = a
      · subst hc
        simp [litM, ih]
      · simp [litM, hc, Ne.symm hc]

theorem takeWhile_sym_append {A : Str} (R : Str) {d : Char}
    (hA : A.all isSymChar = true) (hd : isSymChar d = false) :
    (A ++ d :: R).takeWhile isSymChar = A := by
  induction A with
  | nil => simp [List.takeWhile, hd]
  | cons a as ih =>
    simp only [List.all_cons, Bool.and_eq_true] at hA
    simp [List.takeWhile, hA.1, ih hA.2]

theorem dropWhile_sym_append {A : Str} (R : Str) {d : Char}
    (hA : A.all isSymChar = true) (hd : isSymChar d = false) :
    (A ++ d :: R).dropWhile isSymChar = d :: R := by
  induction A with
  | nil => simp [List.dropWhile, hd]
  | cons a as ih =>
    simp only [List.all_cons, Bool.and_eq_true] at hA
    simp [List.dropWhile, hA.1, ih hA.2]

theorem takeSym_append {A : Str} (R : Str) {d : Char}
    (hA : A.all isSymChar = true) (hne : A ≠ []) (hd : isSymChar d = false) :
    takeSym (A ++ d :: R) = some (A, d :: R) := by
  unfold takeSym
  rw [takeWhile_sym_append R hA hd, dropWhile_sym_append R hA hd]
  simp [hne]

theorem takeWhile_all_sym {l : Str} (h : l.all isSymChar = true) :
    l.takeWhile isSymChar = l := by
  induction l with
  | nil => rfl
  | cons a as ih =>
    simp only [List.all_cons, Bool.and_eq_true] at h
    simp [List.takeWhile, h.1, ih h.2]

theorem dropWhile_all_sym {l : Str} (h : l.all isSymChar = true) :
    l.dropWhile isSymChar = [] := by
  induction l with
  | nil => rfl
  | cons a as ih =>
    simp only [List.all_cons, Bool.and_eq_true] at h
    simp [List.dropWhile, h.1, ih h.2]

theorem takeSym_all {l : Str} (h : l.all isSymChar = true) (hne : l ≠ []) :
    takeSym l = some (l, []) := by
  unfold takeSym
  rw [takeWhile_all_sym h, dropWhile_all_sym h]
  simp [hne]

theorem findallAux_nil {κ : Type} (m : Str → Option (κ × Str)) (fuel : Nat) :
    findallAux m fuel [] = [] := by
  cases fuel <;> rfl

theorem findallAux_cons_none {κ : Type} {m : Str → Option (κ × Str)}
    {c : Char} {rest : Str} (fuel : Nat) (h : m (c :: rest) = none) :
    findallAux m (fuel + 1) (c :: rest) = findallAux m fuel rest := by
  simp [findallAux, h]

theorem findallAux_cons_some {κ : Type} {m : Str → Option (κ × Str)}
    {c : Char} {rest r : Str} {cap : κ} (fuel : Nat)
    (h : m (c :: rest) = some (cap, r)) :
    findallAux m (fuel + 1) (c :: rest) = cap :: findallAux m fuel r := by
  simp [findallAux, h]

theorem findallAux_eq_nil {κ : Type} {m : Str → Option (κ × Str)} {l : Str}
    (h : ∀ s, s <:+ l → m s = none) : ∀ fuel, findallAux m fuel l = [] := by
  induction l with
  | nil => intro fuel; exact findallAux_nil m fuel
  | cons c rest ih =>
    intro fuel
    cases fuel with
    | zero => rfl
    | succ f =>
      rw [findallAux_cons_none f (h _ (List.suffix_refl _))]
      exact ih (fun s hs => h s (hs.trans (List.suffix_cons c rest))) f

theorem findallM_eq_nil {κ : Type} {m : Str → Option (κ × Str)} {l : Str}
    (h : ∀ s, s <:+ l → m s = none) : findallM m l = [] :=
  findallAux_eq_nil h _

theorem suffix_append_cases {s X Y : Str} (h : s <:+ (X ++ Y)) :
    (∃ X', X' <:+ X ∧ s = X' ++ Y) ∨ s <:+ Y := by
  obtain ⟨t, ht⟩ := h
  rcases List.append_eq_append_iff.mp ht with ⟨a, ha1, ha2⟩ | ⟨c, hc1, hc2⟩
  · left
    exact ⟨a, ⟨t, ha1.symm⟩, ha2⟩
  · right
    exact ⟨c, hc2.symm⟩

theorem all_sym_of_suffix {l s : Str} (h : s <:+ l) (hl : l.all isSymChar = true) :
    s.all isSymChar = true := by
  rw [List.all_eq_true] at hl ⊢
  exact fun c hc => hl c (h.subset hc)

theorem litM_sym_split {Y : Str}
    (hY : ∀ d R, Y = d :: R → isSymChar d = false) :
    ∀ (w X r : Str), w.all isSymChar = true → X.all isSymChar = true →
      litM w (X ++ Y) = some r →
      ∃ X₂, X = w ++ X₂ ∧ r = X₂ ++ Y ∧ X₂.all isSymChar = true := by
  intro w
  induction w with
  | nil =>
    intro X r _ hX h
    refine ⟨X, rfl, ?_, hX⟩
    simpa [litM] using h.symm
  | cons a as ih =>
    intro X r hw hX h
    cases X with
    | nil =>
      exfalso
      cases hYc : Y with
      | nil => rw [hYc] at h; simp [litM] at h
      | cons d R =>
        have hd := hY d R hYc
        rw [hYc] at h
        simp only [List.all_cons, Bool.and_eq_true] at hw
        have hda : d ≠ a := by
          intro hh
          rw [hh] at hd
          rw [hw.1] at hd
          exact Bool.true_eq_false.mp hd
        simp [litM, hda] at h
    | cons x X' =>
      simp only [List.cons_append, litM] at h
      by_cases hx : x = a
      · rw [if_pos hx] at h
        simp only [List.all_cons, Bool.and_eq_true] at hw hX
        obtain ⟨X₂, h1, h2, h3⟩ := ih X' r hw.2 hX.2 h
        exact ⟨X₂, by rw [hx, h1, List.cons_append], h2, h3⟩
      · rw [if_neg hx] at h
        exact absurd h (by simp)

theorem spaces1_space (l : Str) : spaces1 (' ' :: l) = some (l.dropWhile isPySpace) := by
  simp [spaces1, isPySpace]

theorem dropWhile_head_not_space {c : Char} (l : Str) (h : isPySpace c = false) :
    (c :: l).dropWhile isPySpace = c :: l := by
  simp [List.dropWhile, h]

theorem findallM_cons_none {κ : Type} {m : Str → Option (κ × Str)} {c : Char}
    {rest : Str} (h : m (c :: rest) = none) :
    findallM m (c :: rest) = findallM m rest := by
  unfold findallM
  have he : (c :: rest).length + 1 = rest.length + 1 + 1 := by simp
  rw [he]
  exact findallAux_cons_none _ h

theorem findallM_cons_all {κ : Type} {m : Str → Option (κ × Str)} {c : Char}
    {rest : Str} {cap : κ} (h : m (c :: rest) = some (cap, [])) :
    findallM m (c :: rest) = [cap] := by
  unfold findallM
  have he : (c :: rest).length + 1 = rest.length + 1 + 1 := by simp
  rw [he, findallAux_cons_some _ h, findallAux_nil]

theorem contentLower_useInstead {A B : Str}
    (hAlow : toLowerL A = A) (hBlow : toLowerL B = B) :
    contentLower (useInsteadADR A B) = useT A B := by
  have h1 : contentLower (useInsteadADR A B) =
      toLowerL ('t' :: ' ' :: (useLit ++ [' '] ++ A ++ [' '] ++ insteadLit ++
        [' '] ++ ofLit ++ [' '] ++ B)) := rfl
  rw [h1]
  simp only [toLowerL, List.map_append, List.map_cons, List.map_nil] at hAlow hBlow ⊢
  rw [hAlow, hBlow]
  simp [useT, tailT, useLit, insteadLit, ofLit]

theorem matchP2_head_ne {c : Char} {l : Str} (h : c ≠ 'u') : matchP2 (c :: l) = none := by
  unfold matchP2
  have hl : litM useLit (c :: l) = none := by
    show litM ('u' :: 's' :: 'e' :: []) (c :: l) = none
    simp [litM, h]
  rw [hl]
  rfl

theorem matchP3_head_ne {c : Char} {l : Str} (h : c ≠ 'r') : matchP3 (c :: l) = none := by
  unfold matchP3
  have hl : litM replaceLit (c :: l) = none := by
    show litM ('r' :: 'e' :: 'p' :: 'l' :: 'a' :: 'c' :: 'e' :: []) (c :: l) = none
    simp [litM, h]
  rw [hl]
  rfl

theorem matchP3_all_sym {l : Str} (hl : l.all isSymChar = true) : matchP3 l = none := by
  unfold matchP3
  cases hlit : litM replaceLit l with
  | none => rfl
  | some r =>
    have hr : l = replaceLit ++ r := litM_eq.mp hlit
    have hrall : r.all isSymChar = true := by
      rw [hr, List.all_append, Bool.and_eq_true] at hl
      exact hl.2
    cases r with
    | nil => rfl
    | cons c r2 =>
      simp only [List.all_cons, Bool.and_eq_true] at hrall
      simp [spaces1, sym_not_space hrall.1]

theorem matchP3_caseA (A' B : Str) (hA' : A'.all isSymChar = true) :
    matchP3 (A' ++ (' ' :: (insteadLit ++ (' ' :: (ofLit ++ (' ' :: B)))))) = none := by
  cases hlit :
      litM replaceLit (A' ++ (' ' :: (insteadLit ++ (' ' :: (ofLit ++ (' ' :: B)))))) with
  | none => unfold matchP3; rw [hlit]; rfl
  | some r =>
    have hYhead : ∀ d R,
        (' ' :: (insteadLit ++ (' ' :: (ofLit ++ (' ' :: B))))) = d :: R →
        isSymChar d = false := by
      intro d R hdr
      injection hdr with h1 _
      rw [← h1]
      decide
    obtain ⟨X₂, hX1, hX2, hX3⟩ :=
      litM_sym_split hYhead replaceLit A' r (by decide) hA' hlit
    unfold matchP3
    rw [hlit]
    subst hX2
    cases X₂ with
    | cons c t =>
      simp only [List.all_cons, Bool.and_eq_true] at hX3
      simp [spaces1, sym_not_space hX3.1]
    | nil =>
      simp only [List.nil_append]
      have s1 : spaces1 (' ' :: (insteadLit ++ (' ' :: (ofLit ++ (' ' :: B))))) =
          some (insteadLit ++ (' ' :: (ofLit ++ (' ' :: B)))) := by
        rw [spaces1_space]
        congr 1
      have s2 : takeSym (insteadLit ++ (' ' :: (ofLit ++ (' ' :: B)))) =
          some (insteadLit, ' ' :: (ofLit ++ (' ' :: B))) :=
        takeSym_append _ (by decide) (by decide) (by decide)
      have s3 : spaces1 (' ' :: (ofLit ++ (' ' :: B))) = some (ofLit ++ (' ' :: B)) := by
        rw [spaces1_space]
        congr 1
      have s4 : litM withLit (ofLit ++ (' ' :: B)) = none := by
        show litM ('w' :: 'i' :: 't' :: 'h' :: []) ('o' :: ('f' :: (' ' :: B))) = none
        simp [litM]
      simp [s1, s2, s3, s4]

theorem matchP3_useT_none {A B : Str} (hAsym : A.all isSymChar = true)
    (hBsym : B.all isSymChar = true) :
    ∀ s, s <:+ useT A B → matchP3 s = none := by
  intro s hs
  have hdecomp : useT A B = "t use ".data ++ (A ++ (" instead of ".data ++ B)) := by
    simp [useT, tailT, insteadLit, ofLit]
  rw [hdecomp] at hs
  rcases suffix_append_cases hs with ⟨P', hP', rfl⟩ | hs2
  · cases P' with
    | nil =>
      simp only [List.nil_append]
      exact matchP3_caseA A B hAsym
    | cons c t =>
      apply matchP3_head_ne
      intro hc
      subst hc
      have hmem : 'r' ∈ "t use ".data := hP'.subset (List.mem_cons_self _ _)
      exact absurd hmem (by decide)
  · rcases suffix_append_cases hs2 with ⟨A', hA', rfl⟩ | hs3
    · exact matchP3_caseA A' B (all_sym_of_suffix hA' hAsym)
    · rcases suffix_append_cases hs3 with ⟨M', hM', rfl⟩ | hs4
      · cases M' with
        | nil =>
          simp only [List.nil_append]
          exact matchP3_all_sym hBsym
        | cons c t =>
          apply matchP3_head_ne
          intro hc
          subst hc
          have hmem : 'r' ∈ " instead of ".data := hM'.subset (List.mem_cons_self _ _)
          exact absurd hmem (by decide)
      · exact matchP3_all_sym (all_sym_of_suffix hs4 hBsym)

theorem matchP2_at {A B : Str} (hAsym : A.all isSymChar = true) (hAne : A ≠ [])
    (hBsym : B.all isSymChar = true) (hBne : B ≠ []) :
    matchP2 ('u' :: 's' :: 'e' :: ' ' :: tailT A B) = some ((A, B), []) := by
  have s1 : litM useLit ('u' :: 's' :: 'e' :: ' ' :: tailT A B) =
      some (' ' :: tailT A B) := litM_eq.mpr rfl
  have s2 : spaces1 (' ' :: tailT A B) = some (tailT A B) := by
    rw [spaces1_space]
    congr 1
    unfold tailT
    cases A with
    | nil => exact absurd rfl hAne
    | cons a A₁ =>
      simp only [List.all_cons, Bool.and_eq_true] at hAsym
      rw [List.cons_append]
      exact dropWhile_head_not_space _ (sym_not_space hAsym.1)
  have s3 : takeSym (tailT A B) =
      some (A, ' ' :: (insteadLit ++ (' ' :: (ofLit ++ (' ' :: B))))) :=
    takeSym_append _ hAsym hAne (by decide)
  have s4 : spaces1 (' ' :: (insteadLit ++ (' ' :: (ofLit ++ (' ' :: B))))) =
      some (insteadLit ++ (' ' :: (ofLit ++ (' ' :: B)))) := by
    rw [spaces1_space]
    congr 1
  have s5 : litM insteadLit (insteadLit ++ (' ' :: (ofLit ++ (' ' :: B)))) =
      some (' ' :: (ofLit ++ (' ' :: B))) := litM_eq.mpr rfl
  have s6 : spaces1 (' ' :: (ofLit ++ (' ' :: B))) = some (ofLit ++ (' ' :: B)) := by
    rw [spaces1_space]
    congr 1
  have s7 : litM ofLit (ofLit ++ (' ' :: B)) = some (' ' :: B) := litM_eq.mpr rfl
  have s8 : spaces1 (' ' :: B) = some B := by
    rw [spaces1_space]
    congr 1
    cases B with
    | nil => exact absurd rfl hBne
    | cons b B₁ =>
      simp only [List.all_cons, Bool.and_eq_true] at hBsym
      exact dropWhile_head_not_space _ (sym_not_space hBsym.1)
  have s9 : takeSym B = some (B, []) := takeSym_all hBsym hBne
  simp [matchP2, s1, s2, s3, s4, s5, s6, s7, s8, s9]

theorem findallM_matchP2_useT {A B : Str} (hAsym : A.all isSymChar = true)
    (hAne : A ≠ []) (hBsym : B.all isSymChar = true) (hBne : B ≠ []) :
    findallM matchP2 (useT A B) = [(A, B)] := by
  rw [show useT A B = 't' :: ' ' :: 'u' :: 's' :: 'e' :: ' ' :: tailT A B from rfl]
  rw [findallM_cons_none (matchP2_head_ne (by decide))]
  rw [findallM_cons_none (matchP2_head_ne (by decide))]
  exact findallM_cons_all (matchP2_at hAsym hAne hBsym hBne)

theorem foldl_procSingle_preferred (ms : List Str) : ∀ st : ExtractedRules,
    (ms.foldl procSingle st).preferred_imports = st.preferred_imports := by
  induction ms with
  | nil => intro st; rfl
  | cons m ms ih =>
    intro st
    rw [List.foldl_cons, ih]
    unfold procSingle
    cases normalizeLibraryName (String.mk (stripL m)) <;> rfl

theorem foldl_procSingle_banned_mem (ms : List Str) : ∀ (st : ExtractedRules)
    (x : String), x ∈ st.banned_imports → x ∈ (ms.foldl procSingle st).banned_imports := by
  induction ms with
  | nil => intro st x h; exact h
  | cons m ms ih =>
    intro st x h
    rw [List.foldl_cons]
    apply ih
    cases hnorm : normalizeLibraryName (String.mk (stripL m)) with
    | none => simpa [procSingle, hnorm] using h
    | some b =>
      simp only [procSingle, hnorm]
      exact List.mem_append_left _ h

/-- Claim C5 (amended): for identifier-like tokens A and B that both survive
normalization, an accepted decision whose body is exactly the directive
`use A instead of B` (the `prefer A over B` form is not recognized and the
directive must not be consumed by an earlier overlapping match) gets B's
normalized form added to the banned imports and mapped to A's normalized form
as the preferred replacement. -/
theorem useInstead_extract {A B : Str} {Aq Bq : String}
    (hAsym : A.all isSymChar = true) (hBsym : B.all isSymChar = true)
    (hAlow : toLowerL A = A) (hBlow : toLowerL B = B)
    (hAne : A ≠ []) (hBne : B ≠ [])
    (hA : normalizeLibraryName (String.mk A) = some Aq)
    (hB : normalizeLibraryName (String.mk B) = some Bq) :
    Bq ∈ (extractFromADR (useInsteadADR A B)).banned_imports ∧
    (Bq, Aq) ∈ (extractFromADR (useInsteadADR A B)).preferred_imports := by
  have hacc : extractFromADR (useInsteadADR A B) = extractPipeline (useInsteadADR A B) := by
    unfold extractFromADR
    rw [if_neg]
    intro hcon
    exact hcon rfl
  rw [hacc]
  have hct : contentLower (useInsteadADR A B) = useT A B :=
    contentLower_useInstead hAlow hBlow
  have h2 : findallM matchP2 (useT A B) = [(A, B)] :=
    findallM_matchP2_useT hAsym hAne hBsym hBne
  have h3 : findallM matchP3 (useT A B) = [] :=
    findallM_eq_nil (matchP3_useT_none hAsym hBsym)
  have hA' : normalizeLibraryName (String.mk (stripL A)) = some Aq := by
    rw [stripL_of_sym hAsym]; exact hA
  have hB' : normalizeLibraryName (String.mk (stripL B)) = some Bq := by
    rw [stripL_of_sym hBsym]; exact hB
  simp only [extractPipeline, hct, h2, h3]
  simp only [List.foldl_cons, List.foldl_nil]
  simp only [procPair, hA', hB']
  constructor
  · apply foldl_procSingle_banned_mem
    exact List.mem_append_right _ (by simp)
  · rw [foldl_procSingle_preferred]
    rw [foldl_procSingle_preferred]
    simp [dictSet]

/-! ## Claim theorems -/

/-- Claim C8: for every ADR (and any set of schema findings), validation
returns a result whose `is_valid` flag is true if and only if the issue list
contains no error-level issue, so warning-level issues alone never make
validation fail. -/
theorem c8_is_valid_iff_no_error (si : List ValidationIssue) (adr : ADR) :
    (validateADR si adr).is_valid = true ↔
      ∀ i ∈ (validateADR si adr).issues, i.level ≠ IssueLevel.error := by
  simp only [validateADR, Bool.not_eq_true', List.any_eq_false, decide_eq_true_eq,
    List.mem_append]

/-- Claim C9 (amended): an ADR whose status is superseded with `superseded_by`
missing or empty draws the error-level `superseded_requires_superseded_by`
issue and fails validation; the front-matter construction raises only when
`superseded_by` is explicitly provided as `None` or an empty list (an omitted
key skips the field validator). -/
theorem c9_superseded_requires_superseded_by (adr : ADR) (si : List ValidationIssue)
    (id title date : String) (decf tagsf supf : PyField (Option (List String)))
    (sb : Option (List String)) (pol : Option PolicyModel)
    (hstat : adr.front_matter.status = ADRStatus.superseded)
    (hsb : adr.front_matter.superseded_by = none ∨ adr.front_matter.superseded_by = some [])
    (hsb2 : sb = none ∨ sb = some []) :
    (∃ i ∈ validateSemanticRules adr,
        i.rule = some "superseded_requires_superseded_by" ∧ i.level = IssueLevel.error) ∧
    (validateADR si adr).is_valid = false ∧
    (∃ e, mkADRFrontMatter id title ADRStatus.superseded date decf tagsf supf
      (PyField.provided sb) pol = Except.error e) := by
  have htr : truthyList adr.front_matter.superseded_by = false := by
    rcases hsb with h | h <;> simp [truthyList, h]
  have hissue : ∃ i ∈ validateSemanticRules adr,
      i.rule = some "superseded_requires_superseded_by" ∧ i.level = IssueLevel.error := by
    simp [validateSemanticRules, hstat, htr]
  refine ⟨hissue, ?_, ?_⟩
  · obtain ⟨i, hi, hrule, hlevel⟩ := hissue
    have hany : ((si ++ validateSemanticRules adr).any
        fun j => decide (j.level = IssueLevel.error)) = true := by
      rw [List.any_eq_true]
      exact ⟨i, List.mem_append_right _ hi, by simp [hlevel]⟩
    simp [validateADR, hany]
  · have hnorm : ensureListOrNone sb = none := by
      rcases hsb2 with h | h <;> simp [ensureListOrNone, h]
    simp only [mkADRFrontMatter, hnorm]
    exact ⟨_, rfl⟩

/-- Claim C10: for every ADR whose status is not accepted, lint-rule extraction
returns the empty rule collections, so only accepted decisions contribute rules
to a generated lint configuration. -/
theorem c10_non_accepted_extracts_nothing (adr : ADR)
    (h : adr.front_matter.status ≠ ADRStatus.accepted) :
    extractFromADR adr = {} := by
  unfold extractFromADR
  rw [if_pos h]

theorem c10_witness :
    adrC10.front_matter.status ≠ ADRStatus.accepted ∧ extractFromADR adrC10 = {} :=
  ⟨by decide, c10_non_accepted_extracts_nothing adrC10 (by decide)⟩

theorem c9_witness :
    adrC9.front_matter.status = ADRStatus.superseded ∧
    (adrC9.front_matter.superseded_by = none ∨
      adrC9.front_matter.superseded_by = some []) ∧
    ((none : Option (List String)) = none ∨ (none : Option (List String)) = some []) ∧
    ((∃ i ∈ validateSemanticRules adrC9,
        i.rule = some "superseded_requires_superseded_by" ∧ i.level = IssueLevel.error) ∧
      (validateADR [] adrC9).is_valid = false ∧
      (∃ e, mkADRFrontMatter "ADR-0003" "Z" ADRStatus.superseded "" PyField.omitted
        PyField.omitted PyField.omitted (PyField.provided none) none = Except.error e)) :=
  ⟨rfl, Or.inl rfl, Or.inl rfl,
    c9_superseded_requires_superseded_by adrC9 [] "ADR-0003" "Z" "" PyField.omitted
      PyField.omitted PyField.omitted none none rfl (Or.inl rfl) (Or.inl rfl)⟩

/-- Claim C9 (counterexample): constructing superseded front matter with the
`superseded_by` key omitted — the claim's "missing" case and the normal parse
path for YAML lacking the key — does not raise: pydantic v2 skips field
validators for omitted fields, so construction succeeds with
`superseded_by = None`. -/
theorem c9_omitted_superseded_by_constructs :
    mkADRFrontMatter "ADR-0003" "Z" ADRStatus.superseded "" PyField.omitted
      PyField.omitted PyField.omitted PyField.omitted none =
    Except.ok
      { id := "ADR-0003", title := "Z", status := ADRStatus.superseded, date := ""
        deciders := none, tags := none, supersedes := none, superseded_by := none
        policy := none } := rfl

/-- Claim C6: a captured token (identifier-shaped, already lowercased by the
scan) is accepted by `_normalize_library_name` if and only if it has the
identifier-like shape, is at least two characters long, and is not a stop
word. -/
theorem c6_normalize_accepts_iff (tok : String)
    (hsym : tok.data.all isSymChar = true)
    (hlow : toLowerL tok.data = tok.data) :
    (normalizeLibraryName tok).isSome = true ↔
      (tok.data.all isSymChar = true ∧ 2 ≤ tok.length ∧ tok ∉ skipWords) := by
  rcases eq_or_ne tok "react-query" with rfl | h1
  · decide
  rcases eq_or_ne tok "react query" with rfl | h2
  · exact absurd hsym (by decide)
  rcases eq_or_ne tok "axios" with rfl | h3
  · decide
  rcases eq_or_ne tok "fetch" with rfl | h4
  · decide
  rcases eq_or_ne tok "lodash" with rfl | h5
  · decide
  rcases eq_or_ne tok "moment" with rfl | h6
  · decide
  rcases eq_or_ne tok "date-fns" with rfl | h7
  · decide
  rcases eq_or_ne tok "dayjs" with rfl | h8
  · decide
  rcases eq_or_ne tok "jquery" with rfl | h9
  · decide
  rcases eq_or_ne tok "underscore" with rfl | h10
  · decide
  have hstrip2 : stripL (toLowerL tok.data) = tok.data := by
    rw [hlow]; exact stripL_of_sym hsym
  have hmk : String.mk tok.data = tok := rfl
  simp only [normalizeLibraryName, libraryMappingLookup, hstrip2, hmk, if_neg h1, if_neg h2,
    if_neg h3, if_neg h4, if_neg h5, if_neg h6, if_neg h7, if_neg h8, if_neg h9,
    if_neg h10]
  by_cases hc : skipWords.contains tok = true ∨ tok.length < 2
  · rw [if_pos hc]
    simp only [Option.isSome_none, Bool.false_eq_true, false_iff, not_and]
    intro _ hlen hmem
    rcases hc with hcon | hlt
    · exact hmem (by simpa using hcon)
    · omega
  · rw [if_neg hc, if_pos hsym]
    push_neg at hc
    simp only [Option.isSome_some, true_iff]
    refine ⟨hsym, by omega, ?_⟩
    intro hmem
    exact absurd (by simpa using hmem : skipWords.contains tok = true)
      (by simpa using hc.1)

theorem c6_witness :
    ("flask".data.all isSymChar = true) ∧
    (toLowerL "flask".data = "flask".data) ∧
    ((normalizeLibraryName "flask").isSome = true ↔
      ("flask".data.all isSymChar = true ∧ 2 ≤ "flask".length ∧
        "flask" ∉ skipWords)) :=
  ⟨by decide, by decide, c6_normalize_accepts_iff "flask" (by decide) (by decide)⟩

/-- Claim C2 (counterexample): on the round-trip text the code does not capture
`django` (the ban pattern captures only the token immediately after the ban
phrase) and does not capture `fastapi` (there is no prefer-over pattern). -/
theorem c2_counterexample :
    "django" ∉ (extractFromADR adrC2).banned_imports ∧
    ¬ ∃ p ∈ (extractFromADR adrC2).preferred_imports, p.2 = "fastapi" := by
  decide

/-- Claim C2 (amended): on the round-trip text
"Don't use Flask or Django. Prefer FastAPI over Flask." the extractor bans
exactly `flask`; `django` is not captured and the preferred map stays empty. -/
theorem c2_amended :
    extractFromADR adrC2 =
      { banned_imports := ["flask"], preferred_imports := [], custom_rules := [] } := by
  decide

/-- Claim C3: on "Replace moment with dayjs" the code bans `dayjs` (the
replacement) and records `moment` as its preferred alternative — the reverse of
the documented directive semantics, because `extract_from_adr` destructures
every two-group match as `(preferred, banned)` while the replace pattern
captures `(old, new)`. -/
theorem c3_replace_groups_swapped :
    extractFromADR adrC3 =
      { banned_imports := ["dayjs"], preferred_imports := [("dayjs", "moment")]
        custom_rules := [] } ∧
    "moment" ∉ (extractFromADR adrC3).banned_imports := by
  decide

/-- Claim C5 (counterexample): "prefer httpx over requests" matches no pattern
and contributes nothing, and in "use x instead of use aaa instead of bbb" the
contained directive "use aaa instead of bbb" is consumed by an earlier
overlapping match, so neither `aaa` nor `bbb` is recorded. -/
theorem c5_counterexample :
    extractFromADR adrC5x =
      { banned_imports := [], preferred_imports := [], custom_rules := [] } ∧
    "bbb" ∉ (extractFromADR adrC5y).banned_imports ∧
    ¬ ∃ p ∈ (extractFromADR adrC5y).preferred_imports, p.2 = "aaa" := by
  decide

theorem c5_witness :
    (("fastapi".data : Str).all isSymChar = true ∧
     ("flask".data : Str).all isSymChar = true ∧
     toLowerL "fastapi".data = "fastapi".data ∧
     toLowerL "flask".data = "flask".data ∧
     ("fastapi".data : Str) ≠ [] ∧
     ("flask".data : Str) ≠ [] ∧
     normalizeLibraryName (String.mk "fastapi".data) = some "fastapi" ∧
     normalizeLibraryName (String.mk "flask".data) = some "flask") ∧
    ("flask" ∈ (extractFromADR (useInsteadADR "fastapi".data "flask".data)).banned_imports ∧
     ("flask", "fastapi") ∈
       (extractFromADR (useInsteadADR "fastapi".data "flask".data)).preferred_imports) :=
  ⟨⟨by decide, by decide, by decide, by decide, by decide, by decide, by decide,
    by decide⟩,
   useInstead_extract (by decide) (by decide) (by decide) (by decide) (by decide)
     (by decide) (by decide) (by decide)⟩

/-- Claim C4 (counterexample): invoking approve on an already-accepted decision
does not succeed and does not overwrite any lock — the `.value` read on the
plain-string status raises and the blanket `except` returns the generic
failure, with nothing written and the immutability step never attempted. -/
theorem c4_counterexample :
    (adrApprove envC4 "ADR-0001" none).success = false ∧
    (adrApprove envC4 "ADR-0001" none).error = some strAttrError ∧
    (adrApprove envC4 "ADR-0001" none).writes = [] ∧
    (adrApprove envC4 "ADR-0001" none).immutability = none :=
  ⟨rfl, rfl, rfl, rfl⟩

/-- Claim C4 (amended): for every store in which the target decision is already
accepted, `adr_approve` does not re-approve: the `status.value` read of the
already-accepted check raises `AttributeError` (parsed status is a plain
string under `use_enum_values`) and the catch-all converts it into a failure
response with error "'str' object has no attribute 'value'"; no file is
written and the immutability step is never attempted, so the lock record is
not overwritten. -/
theorem c4_approve_already_accepted_fails (env : ApproveEnv) (adrId : String)
    (sids : Option (List String)) (path : String) (adr : ADR)
    (hfind : findADRById env.files adrId = some (path, adr))
    (_hacc : adr.front_matter.status = ADRStatus.accepted) :
    adrApprove env adrId sids =
      { success := false, error := some strAttrError } := by
  unfold adrApprove
  rw [hfind]
  rfl

theorem c4_witness :
    findADRById envC4.files "ADR-0001" = some ("docs/adr/ADR-0001-x.md", adrC4) ∧
    adrC4.front_matter.status = ADRStatus.accepted ∧
    adrApprove envC4 "ADR-0001" none =
      { success := false, error := some strAttrError } :=
  ⟨rfl, rfl,
    c4_approve_already_accepted_fails envC4 "ADR-0001" none "docs/adr/ADR-0001-x.md"
      adrC4 rfl rfl⟩

/-- Claim C7: the code is structured for the claimed containment (the
accepted-status write precedes the try/except around the lock step and a lock
failure is noted inside a success response), but the path is unreachable: the
`status.value` read of the already-accepted check raises for every parsed ADR,
so approval fails before validation, the file write and the lock step.
Evaluated here at the claim's own scenario — a proposed, cleanly-validating
target whose immutability step would fail — the call returns the generic
failure with nothing persisted and no lock attempt, contradicting the claim. -/
theorem c7_approve_crashes_before_lock :
    envC7.lockResult = Except.error "disk full" ∧
    (validateADR (envC7.schemaIssues adrC7) adrC7).is_valid = true ∧
    (adrApprove envC7 "ADR-0002" none).success = false ∧
    (adrApprove envC7 "ADR-0002" none).error = some strAttrError ∧
    (adrApprove envC7 "ADR-0002" none).writes = [] ∧
    (adrApprove envC7 "ADR-0002" none).immutability = none :=
  ⟨rfl, rfl, rfl, rfl, rfl, rfl⟩

/-- Claim C1: creating a decision with no structured policy block and prose
with no recognized directive phrase yields a successful response that carries
no policy warning at all (the completeness check is skipped because
`has_extractable_policy` is false), i.e. the empty extraction is silent. -/
theorem c1_create_without_policy_is_silent :
    (adrCreate envC1 payloadC1).success = true ∧
    (adrCreate envC1 payloadC1).policy_warnings = [] ∧
    (adrCreate envC1 payloadC1).policy_detected = false ∧
    ((adrCreate envC1 payloadC1).write.map fun w => hasExtractablePolicy w.2) =
      some false :=
  ⟨rfl, rfl, rfl, rfl⟩
